import Mathlib

/-!
# Verification of the CRM lead-scoring core

Shallow embedding of the config-driven lead-scoring pipeline
(`backend/app/engines/scoring_engine.py`, `explanation_engine.py`,
`next_action_engine.py`, `backend/app/services/lead_service.py`).

Numbers are modelled over `ℚ` (Python ints/floats idealised as exact
rationals; division is Lean's total division, with the conventional
`x / 0 = 0`).  Timestamps are modelled by integer day counts:
`days_since_enquiry = now - enquiry_day`, which may be negative for a
future enquiry date, mirroring `(datetime.utcnow() - enquiry_date).days`.
-/

namespace CRM

/-- One entry of the `weights` section of the configuration:
feature name, numeric weight, textual description. -/
structure WeightEntry where
  feature : String
  weight : ℚ
  description : String
deriving Repr, DecidableEq

/-- The `recency` section of the configuration (defaults
`days_decay = 15`, `max_score = 10` already folded in, as produced by
the `.get(..., default)` calls in the engine). -/
structure RecencyConfig where
  days_decay : ℚ
  max_score : ℚ
  description : String
deriving Repr, DecidableEq

/-- Configuration state of `ConfigDrivenScoringEngine` after `__init__`:
`self.weights` and `self.recency_config`. -/
structure ScoringConfig where
  weights : List WeightEntry
  recency : RecencyConfig
deriving Repr, DecidableEq

/-- A lead's feature payload as seen by `ConfigDrivenScoringEngine.score`:
`features f` is the truthiness of `lead_data.get(f, False)`, and
`daysSinceEnquiry` is `some d` when an enquiry timestamp is present
(`d` = integer days between now and the enquiry date, negative for a
future date) and `none` when `lead_data.get('enquiry_date')` is `None`. -/
structure LeadData where
  features : String → Bool
  daysSinceEnquiry : Option ℤ

/-- One element of the `contributions` list of a scoring result. -/
structure Contribution where
  feature : String
  impact : ℚ
  reason : String
deriving Repr, DecidableEq

/-- The dictionary returned by `ConfigDrivenScoringEngine.score`. -/
structure ScoringResult where
  score : ℚ
  contributions : List Contribution
  raw_scores : List (String × ℚ)
  recency_score : ℚ
deriving Repr, DecidableEq

/-- `ConfigDrivenScoringEngine._calculate_recency_score`:
`0` when no enquiry date, else
`max(0, (days_decay - days_since) / days_decay * max_score)`. -/
def calcRecencyScore (rc : RecencyConfig) (daysSince : Option ℤ) : ℚ :=
  match daysSince with
  | none => 0
  | some days => max 0 ((rc.days_decay - (days : ℚ)) / rc.days_decay * rc.max_score)

/-- Raw points of a single configured feature for a lead:
`weight` when the feature is truthy in the lead data, else `0`
(the `raw_scores[feature]` assignment in `score`). -/
def featureRaw (lead : LeadData) (e : WeightEntry) : ℚ :=
  if lead.features e.feature then e.weight else 0

/-- The part of `total_raw_score` accumulated from the weighted features
(before the recency score is added). -/
def matchedWeightSum (cfg : ScoringConfig) (lead : LeadData) : ℚ :=
  (cfg.weights.map (featureRaw lead)).sum

/-- Sum of all configured feature weights (the part of `total_weight`
accumulated inside the feature loop). -/
def weightSum (cfg : ScoringConfig) : ℚ :=
  (cfg.weights.map WeightEntry.weight).sum

/-- The recency component of a lead's score. -/
def recencyOf (cfg : ScoringConfig) (lead : LeadData) : ℚ :=
  calcRecencyScore cfg.recency lead.daysSinceEnquiry

/-- `total_raw_score` after the recency score has been added. -/
def totalRawScore (cfg : ScoringConfig) (lead : LeadData) : ℚ :=
  matchedWeightSum cfg lead + recencyOf cfg lead

/-- `total_weight` after `max_score` has been added: the sum of all
configured weights plus the recency budget, added unconditionally. -/
def totalWeight (cfg : ScoringConfig) : ℚ :=
  weightSum cfg + cfg.recency.max_score

/-- The normalisation step of `score`:
`min(100, total_raw_score / total_weight * 100)` if `total_weight > 0`,
else `0`. -/
def normalizedScore (cfg : ScoringConfig) (lead : LeadData) : ℚ :=
  if 0 < totalWeight cfg then
    min 100 (totalRawScore cfg lead / totalWeight cfg * 100)
  else 0

/-- The contribution entries built from the feature loop: one entry per
configured feature whose raw score is positive, with
`impact = raw_score / total_weight * 100` and the configured description
as reason. -/
def baseContributions (cfg : ScoringConfig) (lead : LeadData) : List Contribution :=
  (cfg.weights.filter (fun e => decide (0 < featureRaw lead e))).map
    (fun e => ⟨e.feature, featureRaw lead e / totalWeight cfg * 100, e.description⟩)

/-- The full contribution list before sorting: feature entries in
configuration order, followed by the synthetic `recency` entry when the
recency score is positive. -/
def contributionsUnsorted (cfg : ScoringConfig) (lead : LeadData) : List Contribution :=
  baseContributions cfg lead ++
    (if 0 < recencyOf cfg lead then
      [⟨"recency", recencyOf cfg lead / totalWeight cfg * 100, cfg.recency.description⟩]
     else [])

/-- Insert a contribution into a list, placing it before the first
element whose impact is not larger.  This is the insertion step of a
stable descending sort, mirroring Python's stable
`list.sort(key=..., reverse=True)`. -/
def insertDesc (c : Contribution) : List Contribution → List Contribution
  | [] => [c]
  | x :: xs => if x.impact ≤ c.impact then c :: x :: xs else x :: insertDesc c xs

/-- Stable insertion sort by impact, descending (the
`contributions_detail.sort(key=lambda x: x['impact'], reverse=True)`
step). -/
def sortDesc : List Contribution → List Contribution
  | [] => []
  | x :: xs => insertDesc x (sortDesc xs)

/-- `ConfigDrivenScoringEngine.score`. -/
def scoreLead (cfg : ScoringConfig) (lead : LeadData) : ScoringResult :=
  { score := normalizedScore cfg lead
    contributions := sortDesc (contributionsUnsorted cfg lead)
    raw_scores := cfg.weights.map (fun e => (e.feature, featureRaw lead e))
    recency_score := recencyOf cfg lead }

/-- Sum of the impact fields of a contribution list. -/
def impactSum (l : List Contribution) : ℚ :=
  (l.map Contribution.impact).sum

/-! ### Basic lemmas about the stable descending sort -/

theorem insertDesc_perm (c : Contribution) (l : List Contribution) :
    List.Perm (insertDesc c l) (c :: l) := by
  induction l with
  | nil => exact List.Perm.refl _
  | cons x xs ih =>
    unfold insertDesc
    by_cases h : x.impact ≤ c.impact
    · rw [if_pos h]
    · rw [if_neg h]
      exact (ih.cons x).trans (List.Perm.swap c x xs)

theorem sortDesc_perm (l : List Contribution) : List.Perm (sortDesc l) l := by
  induction l with
  | nil => exact List.Perm.refl _
  | cons x xs ih =>
    unfold sortDesc
    exact (insertDesc_perm x (sortDesc xs)).trans (ih.cons x)

theorem mem_insertDesc {a c : Contribution} {l : List Contribution} :
    a ∈ insertDesc c l ↔ a = c ∨ a ∈ l := by
  rw [(insertDesc_perm c l).mem_iff]
  exact List.mem_cons

theorem mem_sortDesc {a : Contribution} {l : List Contribution} :
    a ∈ sortDesc l ↔ a ∈ l :=
  (sortDesc_perm l).mem_iff

theorem insertDesc_sorted {c : Contribution} {l : List Contribution}
    (h : l.Pairwise (fun a b => b.impact ≤ a.impact)) :
    (insertDesc c l).Pairwise (fun a b => b.impact ≤ a.impact) := by
  induction l with
  | nil => simp [insertDesc]
  | cons x xs ih =>
    rw [List.pairwise_cons] at h
    unfold insertDesc
    by_cases hx : x.impact ≤ c.impact
    · rw [if_pos hx]
      refine List.Pairwise.cons ?_ (List.Pairwise.cons h.1 h.2)
      intro b hb
      rcases List.mem_cons.mp hb with hb | hb
      · exact hb ▸ hx
      · exact le_trans (h.1 b hb) hx
    · rw [if_neg hx]
      refine List.Pairwise.cons ?_ (ih h.2)
      intro b hb
      rcases mem_insertDesc.mp hb with hb | hb
      · subst hb; exact le_of_lt (lt_of_not_le hx)
      · exact h.1 b hb

theorem sortDesc_sorted (l : List Contribution) :
    (sortDesc l).Pairwise (fun a b => b.impact ≤ a.impact) := by
  induction l with
  | nil => simp [sortDesc]
  | cons x xs ih => exact insertDesc_sorted ih

theorem insertDesc_filter (c : Contribution) (l : List Contribution) (q : ℚ) :
    (insertDesc c l).filter (fun a => decide (a.impact = q)) =
      if c.impact = q then c :: l.filter (fun a => decide (a.impact = q))
      else l.filter (fun a => decide (a.impact = q)) := by
  induction l with
  | nil =>
    by_cases hc : c.impact = q <;> simp [insertDesc, List.filter, hc]
  | cons x xs ih =>
    unfold insertDesc
    by_cases hx : x.impact ≤ c.impact
    · rw [if_pos hx]
      by_cases hc : c.impact = q
      · simp [List.filter_cons, hc]
      · simp [List.filter_cons, hc]
    · rw [if_neg hx]
      by_cases hxq : x.impact = q
      · by_cases hc : c.impact = q
        · exact absurd (le_of_eq (hxq.trans hc.symm)) hx
        · simp [List.filter_cons, hxq, ih, hc]
      · simp [List.filter_cons, hxq, ih]

theorem sortDesc_filter (l : List Contribution) (q : ℚ) :
    (sortDesc l).filter (fun a => decide (a.impact = q)) =
      l.filter (fun a => decide (a.impact = q)) := by
  induction l with
  | nil => simp [sortDesc]
  | cons x xs ih =>
    unfold sortDesc
    rw [insertDesc_filter]
    by_cases hx : x.impact = q <;> simp [List.filter_cons, hx, ih]

theorem impactSum_sortDesc (l : List Contribution) :
    impactSum (sortDesc l) = impactSum l :=
  ((sortDesc_perm l).map Contribution.impact).sum_eq

/-! ### Scoring-engine construction (`__init__` / `_load_config`) -/

/-- A parsed configuration document: each top-level section may be
absent, in which case `__init__` substitutes a default
(`config.get('weights', {})`, `config.get('recency', {})`). -/
structure ConfigDoc where
  weights : Option (List WeightEntry)
  recency : Option RecencyConfig
deriving Repr, DecidableEq

/-- The effective recency parameters when the `recency` section is
missing: every lookup then falls back to its call-site default
(`days_decay = 15`, `max_score = 10`, empty description). -/
def defaultRecencyConfig : RecencyConfig := ⟨15, 10, ""⟩

/-- The engine state established by `ConfigDrivenScoringEngine.__init__`. -/
structure ScoringEngineState where
  weights : List WeightEntry
  recency_config : RecencyConfig
deriving Repr, DecidableEq

/-- `ConfigDrivenScoringEngine.__init__` together with `_load_config`:
`none` models a missing or malformed document (the `open`/`yaml` failure
that `_load_config` re-raises); a parsed document always yields an
engine whose sections default to empty when absent. -/
def initScoringEngine (doc : Option ConfigDoc) : Except String ScoringEngineState :=
  match doc with
  | none => Except.error "Failed to load configuration"
  | some d => Except.ok ⟨d.weights.getD [], d.recency.getD defaultRecencyConfig⟩

/-! ### Explanation engine -/

/-- The `intent_thresholds` section (defaults `high = 80`, `medium = 60`
folded in, as produced by the `.get` calls). -/
structure IntentThresholds where
  high : ℚ
  medium : ℚ
deriving Repr, DecidableEq

/-- `ExplanationEngine._determine_intent_level`. -/
def determineIntentLevel (t : IntentThresholds) (score : ℚ) : String :=
  if t.high ≤ score then "High"
  else if t.medium ≤ score then "Medium"
  else "Low"

/-- Rank of an intent level in the order High > Medium > Low, used to
state monotonicity of the tier in the score. -/
def intentRank (level : String) : ℕ :=
  if level = "High" then 2 else if level = "Medium" then 1 else 0

/-- The lead dictionary as consumed by
`ExplanationEngine._calculate_confidence`: the truthiness of each value
of `lead_data` (in insertion order), plus the integer days since the
enquiry when the dictionary holds a truthy `enquiry_date`
(`none` when the key is absent or its value falsy). -/
structure ConfLeadData where
  fieldTruthy : List Bool
  enquiryDaysSince : Option ℤ

/-- `ExplanationEngine._calculate_confidence`.  The `confidence_factors`
weights of the configuration are read and summed but never applied, as
in the source; `lead_data = none` models passing `None`. -/
def calcConfidence (confidence_factors : List ℚ) (score : ℚ)
    (contributions : List Contribution) (lead_data : Option ConfLeadData) : ℚ :=
  let total_weight := confidence_factors.sum
  let data_completeness : ℚ :=
    match lead_data with
    | none => 0.6
    | some l =>
        if l.fieldTruthy.length = 0 then 0.6
        else (l.fieldTruthy.count true : ℚ) / (l.fieldTruthy.length : ℚ)
  let signal_recency : ℚ :=
    match lead_data with
    | none => 0.8
    | some l =>
        if l.fieldTruthy.length = 0 then 0.8
        else
          match l.enquiryDaysSince with
          | none => 0.8
          | some days => max 0 (1 - (days : ℚ) / 30)
  let signal_diversity : ℚ := min 1 ((contributions.length : ℚ) / 5)
  max 0 (min 100
    ((data_completeness * 0.3 + signal_recency * 0.4 + signal_diversity * 0.3) * 100))

/-- Modelled from the spec: the confidence formula as the specification
states it — `max(0, min(100, 100 × (0.3 × data_completeness +
0.4 × signal_recency + 0.3 × signal_diversity)))`, where
data completeness is the fraction of supplied fields that are truthy
(default `0.6` when no feature map is given), signal recency is
`max(0, 1 − days_since_enquiry/30)` (default `0.8` when no enquiry
timestamp exists), and signal diversity is
`min(1.0, contribution_count / 5)`.  No configuration enters the
formula. -/
def confidenceSpec (contributions : List Contribution)
    (lead_data : Option ConfLeadData) : ℚ :=
  let data_completeness : ℚ :=
    match lead_data with
    | none => 0.6
    | some l =>
        if l.fieldTruthy.length = 0 then 0.6
        else (l.fieldTruthy.count true : ℚ) / (l.fieldTruthy.length : ℚ)
  let signal_recency : ℚ :=
    match lead_data with
    | none => 0.8
    | some l =>
        if l.fieldTruthy.length = 0 then 0.8
        else
          match l.enquiryDaysSince with
          | none => 0.8
          | some days => max 0 (1 - (days : ℚ) / 30)
  let signal_diversity : ℚ := min 1 ((contributions.length : ℚ) / 5)
  max 0 (min 100
    (100 * (0.3 * data_completeness + 0.4 * signal_recency + 0.3 * signal_diversity)))

/-- Python's `round` idealised over `ℚ`: round to the nearest integer,
ties to even. -/
def roundHalfEven (q : ℚ) : ℤ :=
  if q - ⌊q⌋ < 1 / 2 then ⌊q⌋
  else if 1 / 2 < q - ⌊q⌋ then ⌊q⌋ + 1
  else if ⌊q⌋ % 2 = 0 then ⌊q⌋ else ⌊q⌋ + 1

/-- `round(x, 1)` idealised over `ℚ`. -/
def pyRound1 (q : ℚ) : ℚ := (roundHalfEven (q * 10) : ℚ) / 10

/-- The configuration state of `ExplanationEngine`. -/
structure ExplanationConfig where
  intent_thresholds : IntentThresholds
  confidence_factors : List ℚ
deriving Repr, DecidableEq

/-- The explanation dictionary built by `ExplanationEngine.explain_score`
(restricted to the fields the persisted record and the claims use:
score, intent level, formatted top-5 contributions, confidence). -/
structure Explanation where
  score : ℚ
  intent_level : String
  feature_contributions : List Contribution
  confidence : ℚ
deriving Repr, DecidableEq

/-- `ExplanationEngine.explain_score`. -/
def explainScore (cfg : ExplanationConfig) (score : ℚ)
    (contributions : List Contribution) (lead_data : Option ConfLeadData) :
    Explanation :=
  let intent_level := determineIntentLevel cfg.intent_thresholds score
  let confidence := calcConfidence cfg.confidence_factors score contributions lead_data
  { score := pyRound1 score
    intent_level := intent_level
    feature_contributions :=
      (contributions.take 5).map (fun c => ⟨c.feature, pyRound1 c.impact, c.reason⟩)
    confidence := pyRound1 confidence }

/-! ### Next-action engine -/

/-- `NextActionEngine._get_action_key`: the score bracket, with
inclusive lower bounds. -/
def getActionKey (score : ℚ) : String :=
  if 80 ≤ score then "score_80_100"
  else if 60 ≤ score then "score_60_79"
  else if 40 ≤ score then "score_40_59"
  else "score_below_40"

/-- One entry of the `recommended_actions` configuration table. -/
structure ActionEntry where
  action : String
  urgency : String
  probability_label : String
deriving Repr, DecidableEq

/-- The configuration state of `NextActionEngine`: the
`recommended_actions` and `conversion_probabilities` tables, keyed by
bracket. -/
structure NextActionConfig where
  recommended_actions : List (String × ActionEntry)
  conversion_probabilities : List (String × ℚ)
deriving Repr, DecidableEq

/-- The recommendation dictionary of `NextActionEngine.get_action`
(restricted to the fields the claims and the persisted record use). -/
structure ActionRecommendation where
  action : String
  urgency : String
  probability_label : String
  probability : ℚ
  score_bracket : String
deriving Repr, DecidableEq

/-- `NextActionEngine.get_action`: look the bracket key up in both
tables, falling back to the in-code defaults when a table lacks the
key. -/
def getAction (cfg : NextActionConfig) (score : ℚ) : ActionRecommendation :=
  let action_key := getActionKey score
  let action_config := (cfg.recommended_actions.find? (fun p => p.1 == action_key)).map Prod.snd
  let prob_config := (cfg.conversion_probabilities.find? (fun p => p.1 == action_key)).map Prod.snd
  { action := (action_config.map ActionEntry.action).getD "No action"
    urgency := (action_config.map ActionEntry.urgency).getD "Low"
    probability_label := (action_config.map ActionEntry.probability_label).getD "<20%"
    probability := prob_config.getD 0
    score_bracket := action_key }

/-! ### Lead service (pipeline orchestration and upsert) -/

/-- The `LeadInput` schema.  `enquiry_date` is an absolute day number
(`none` when no enquiry date was supplied); `company` is nullable. -/
structure LeadInput where
  email : String
  name : String
  company : Option String
  demo_requested : Bool
  registration : Bool
  enquiry_call_whatsapp : Bool
  enquiry_date : Option ℤ
  pricing_compared : Bool
  lead_through_events : Bool
  lead_through_call : Bool
  lead_through_referral : Bool
deriving Repr, DecidableEq

/-- Python truthiness of a string value. -/
def strTruthy (s : String) : Bool := s ≠ ""

/-- Python truthiness of a nullable string value. -/
def optStrTruthy : Option String → Bool
  | none => false
  | some s => strTruthy s

/-- `lead_data.get(feature, False)` over the dictionary produced by
`lead_data.model_dump()`: truthiness of each field by name, `False` for
unknown keys. -/
def LeadInput.featureMap (i : LeadInput) : String → Bool := fun f =>
  if f = "email" then strTruthy i.email
  else if f = "name" then strTruthy i.name
  else if f = "company" then optStrTruthy i.company
  else if f = "demo_requested" then i.demo_requested
  else if f = "registration" then i.registration
  else if f = "enquiry_call_whatsapp" then i.enquiry_call_whatsapp
  else if f = "enquiry_date" then i.enquiry_date.isSome
  else if f = "pricing_compared" then i.pricing_compared
  else if f = "lead_through_events" then i.lead_through_events
  else if f = "lead_through_call" then i.lead_through_call
  else if f = "lead_through_referral" then i.lead_through_referral
  else false

/-- The lead dictionary as seen by the scoring engine, at clock `now`. -/
def LeadInput.toLeadData (i : LeadInput) (now : ℤ) : LeadData :=
  { features := i.featureMap
    daysSinceEnquiry := i.enquiry_date.map (fun d => now - d) }

/-- The lead dictionary as seen by the confidence calculation, at clock
`now`: the truthiness of the eleven `model_dump` values in field order,
and the days since the enquiry when an enquiry date is present. -/
def LeadInput.toConfLeadData (i : LeadInput) (now : ℤ) : ConfLeadData :=
  { fieldTruthy :=
      [strTruthy i.email, strTruthy i.name, optStrTruthy i.company,
       i.demo_requested, i.registration, i.enquiry_call_whatsapp,
       i.enquiry_date.isSome, i.pricing_compared, i.lead_through_events,
       i.lead_through_call, i.lead_through_referral]
    enquiryDaysSince := i.enquiry_date.map (fun d => now - d) }

/-- The persisted `Lead` row (the `feature_contributions` column is the
JSON-serialised contribution list, modelled structurally). -/
structure LeadRecord where
  email : String
  name : String
  company : Option String
  demo_requested : Bool
  registration : Bool
  enquiry_call_whatsapp : Bool
  enquiry_date : Option ℤ
  pricing_compared : Bool
  lead_through_events : Bool
  lead_through_call : Bool
  lead_through_referral : Bool
  score : ℚ
  intent_level : String
  confidence : ℚ
  recommended_action : String
  feature_contributions : List Contribution
  created_at : ℤ
  updated_at : ℤ
deriving Repr, DecidableEq

/-- The feature and scoring fields of a persisted record — everything
the update path overwrites (i.e. the row minus the timestamps). -/
structure StoredFields where
  email : String
  name : String
  company : Option String
  demo_requested : Bool
  registration : Bool
  enquiry_call_whatsapp : Bool
  enquiry_date : Option ℤ
  pricing_compared : Bool
  lead_through_events : Bool
  lead_through_call : Bool
  lead_through_referral : Bool
  score : ℚ
  intent_level : String
  confidence : ℚ
  recommended_action : String
  feature_contributions : List Contribution
deriving Repr, DecidableEq

/-- Projection of a persisted record onto its feature and scoring
fields. -/
def storedFields (r : LeadRecord) : StoredFields :=
  ⟨r.email, r.name, r.company, r.demo_requested, r.registration,
   r.enquiry_call_whatsapp, r.enquiry_date, r.pricing_compared,
   r.lead_through_events, r.lead_through_call, r.lead_through_referral,
   r.score, r.intent_level, r.confidence, r.recommended_action,
   r.feature_contributions⟩

/-- The combined configuration consumed by the pipeline's three
engines. -/
structure PipelineConfig where
  scoring : ScoringConfig
  explanation : ExplanationConfig
  nextAction : NextActionConfig

/-- The feature and scoring fields `LeadService.score_lead` computes for
a payload: every field is a pure function of the configuration, the
clock and the input. -/
def computedStoredFields (cfg : PipelineConfig) (now : ℤ) (i : LeadInput) :
    StoredFields :=
  let result := scoreLead cfg.scoring (i.toLeadData now)
  let expl := explainScore cfg.explanation result.score result.contributions
    (some (i.toConfLeadData now))
  let act := getAction cfg.nextAction result.score
  ⟨i.email, i.name, i.company, i.demo_requested, i.registration,
   i.enquiry_call_whatsapp, i.enquiry_date, i.pricing_compared,
   i.lead_through_events, i.lead_through_call, i.lead_through_referral,
   result.score, expl.intent_level, expl.confidence, act.action,
   result.contributions⟩

/-- The update path of `score_lead`: overwrite every input field
(`setattr` loop) and every scoring field of the existing row, and bump
`updated_at`; `created_at` is untouched. -/
def overwriteLead (s : StoredFields) (now : ℤ) (r : LeadRecord) : LeadRecord :=
  { email := s.email, name := s.name, company := s.company
    demo_requested := s.demo_requested, registration := s.registration
    enquiry_call_whatsapp := s.enquiry_call_whatsapp
    enquiry_date := s.enquiry_date, pricing_compared := s.pricing_compared
    lead_through_events := s.lead_through_events
    lead_through_call := s.lead_through_call
    lead_through_referral := s.lead_through_referral
    score := s.score, intent_level := s.intent_level
    confidence := s.confidence, recommended_action := s.recommended_action
    feature_contributions := s.feature_contributions
    created_at := r.created_at, updated_at := now }

/-- The insert path of `score_lead`: a fresh row whose timestamps are
both the current clock. -/
def newLeadRecord (s : StoredFields) (now : ℤ) : LeadRecord :=
  { email := s.email, name := s.name, company := s.company
    demo_requested := s.demo_requested, registration := s.registration
    enquiry_call_whatsapp := s.enquiry_call_whatsapp
    enquiry_date := s.enquiry_date, pricing_compared := s.pricing_compared
    lead_through_events := s.lead_through_events
    lead_through_call := s.lead_through_call
    lead_through_referral := s.lead_through_referral
    score := s.score, intent_level := s.intent_level
    confidence := s.confidence, recommended_action := s.recommended_action
    feature_contributions := s.feature_contributions
    created_at := now, updated_at := now }

/-- Apply `f` to the first element satisfying `p` (the single row
returned by `.first()` that the update path mutates). -/
def updateFirst {α : Type} (p : α → Bool) (f : α → α) : List α → List α
  | [] => []
  | x :: xs => if p x then f x :: xs else x :: updateFirst p f xs

/-- `LeadService.score_lead` restricted to its persistent effect: run
the three engines on the payload, then update the existing row for the
email if one exists, else insert a new row. -/
def scoreLeadService (cfg : PipelineConfig) (now : ℤ)
    (store : List LeadRecord) (input : LeadInput) : List LeadRecord :=
  let s := computedStoredFields cfg now input
  match store.find? (fun r => r.email == input.email) with
  | some _ => updateFirst (fun r => r.email == input.email) (overwriteLead s now) store
  | none => store ++ [newLeadRecord s now]

/-- Lookup-by-email over the store, projected onto the persisted
feature and scoring fields. -/
def lookupStored (store : List LeadRecord) (email : String) : Option StoredFields :=
  (store.find? (fun r => r.email == email)).map storedFields

/-! ### Supporting lemmas about the scoring arithmetic -/

theorem featureRaw_nonneg {lead : LeadData} {e : WeightEntry} (h : 0 ≤ e.weight) :
    0 ≤ featureRaw lead e := by
  unfold featureRaw
  split <;> simp [h]

theorem featureRaw_le_weight {lead : LeadData} {e : WeightEntry} (h : 0 ≤ e.weight) :
    featureRaw lead e ≤ e.weight := by
  unfold featureRaw
  split <;> simp [h]

theorem matchedWeightSum_nonneg {cfg : ScoringConfig} {lead : LeadData}
    (hw : ∀ e ∈ cfg.weights, 0 ≤ e.weight) : 0 ≤ matchedWeightSum cfg lead := by
  apply List.sum_nonneg
  intro x hx
  rcases List.mem_map.mp hx with ⟨e, he, rfl⟩
  exact featureRaw_nonneg (hw e he)

theorem weightSum_nonneg {cfg : ScoringConfig}
    (hw : ∀ e ∈ cfg.weights, 0 ≤ e.weight) : 0 ≤ weightSum cfg := by
  apply List.sum_nonneg
  intro x hx
  rcases List.mem_map.mp hx with ⟨e, he, rfl⟩
  exact hw e he

theorem matchedWeightSum_le_weightSum {cfg : ScoringConfig} {lead : LeadData}
    (hw : ∀ e ∈ cfg.weights, 0 ≤ e.weight) :
    matchedWeightSum cfg lead ≤ weightSum cfg := by
  apply List.sum_le_sum
  intro e he
  exact featureRaw_le_weight (hw e he)

theorem calcRecencyScore_nonneg (rc : RecencyConfig) (d : Option ℤ) :
    0 ≤ calcRecencyScore rc d := by
  cases d with
  | none => exact le_refl 0
  | some days => exact le_max_left 0 _

theorem recencyOf_nonneg (cfg : ScoringConfig) (lead : LeadData) :
    0 ≤ recencyOf cfg lead :=
  calcRecencyScore_nonneg cfg.recency lead.daysSinceEnquiry

theorem totalRawScore_nonneg {cfg : ScoringConfig} {lead : LeadData}
    (hw : ∀ e ∈ cfg.weights, 0 ≤ e.weight) : 0 ≤ totalRawScore cfg lead :=
  add_nonneg (matchedWeightSum_nonneg hw) (recencyOf_nonneg cfg lead)

/-- With a non-negative (past or present) enquiry age and a positive
decay window, the recency score never exceeds its budget. -/
theorem calcRecencyScore_le_max {rc : RecencyConfig} {days : ℤ}
    (hd : 0 < rc.days_decay) (hm : 0 ≤ rc.max_score) (hdays : 0 ≤ days) :
    calcRecencyScore rc (some days) ≤ rc.max_score := by
  unfold calcRecencyScore
  apply max_le hm
  have h1 : (rc.days_decay - (days : ℚ)) / rc.days_decay ≤ 1 := by
    rw [div_le_one hd]
    have : (0 : ℚ) ≤ (days : ℚ) := by exact_mod_cast hdays
    linarith
  calc (rc.days_decay - (days : ℚ)) / rc.days_decay * rc.max_score
      ≤ 1 * rc.max_score := mul_le_mul_of_nonneg_right h1 hm
    _ = rc.max_score := one_mul _

/-! ## C1 -/

/-- C1: For every lead feature set and every configuration with
non-negative feature weights and non-negative recency `max_score`, the
score returned by `score` lies in `[0, 100]`; it equals
`min(100, total_raw_score / total_weight * 100)` when `total_weight > 0`
and `0` when `total_weight = 0`. -/
theorem score_in_range (cfg : ScoringConfig) (lead : LeadData)
    (hw : ∀ e ∈ cfg.weights, 0 ≤ e.weight) (hm : 0 ≤ cfg.recency.max_score) :
    (0 ≤ (scoreLead cfg lead).score ∧ (scoreLead cfg lead).score ≤ 100) ∧
    (0 < totalWeight cfg →
      (scoreLead cfg lead).score =
        min 100 (totalRawScore cfg lead / totalWeight cfg * 100)) ∧
    (totalWeight cfg = 0 → (scoreLead cfg lead).score = 0) := by
  have hscore : (scoreLead cfg lead).score = normalizedScore cfg lead := rfl
  rw [hscore]
  unfold normalizedScore
  by_cases hW : 0 < totalWeight cfg
  · rw [if_pos hW]
    refine ⟨⟨?_, min_le_left _ _⟩, fun _ => rfl, fun h0 => absurd h0 (ne_of_gt hW)⟩
    apply le_min (by norm_num)
    have := @totalRawScore_nonneg cfg lead hw
    positivity
  · rw [if_neg hW]
    exact ⟨⟨le_refl 0, by norm_num⟩, fun h => absurd h hW, fun _ => rfl⟩

/-- The configuration of the spec's worked example: weights
`demo_requested = 30`, `registration = 20`, `pricing_compared = 15`,
recency `days_decay = 15`, `max_score = 10`. -/
def exampleConfig : ScoringConfig :=
  ⟨[⟨"demo_requested", 30, "Requested a demo"⟩,
    ⟨"registration", 20, "Completed registration"⟩,
    ⟨"pricing_compared", 15, "Compared pricing"⟩],
   ⟨15, 10, "Recent enquiry"⟩⟩

/-- The lead of the spec's worked example: demo requested and pricing
compared, enquiry five days ago. -/
def exampleLead : LeadData :=
  ⟨fun f => f == "demo_requested" || f == "pricing_compared", some 5⟩

/-- Witness for C1 at the spec's worked example. -/
theorem score_in_range_witness :
    (0 ≤ (scoreLead exampleConfig exampleLead).score ∧
      (scoreLead exampleConfig exampleLead).score ≤ 100) ∧
    (0 < totalWeight exampleConfig →
      (scoreLead exampleConfig exampleLead).score =
        min 100 (totalRawScore exampleConfig exampleLead / totalWeight exampleConfig * 100)) ∧
    (totalWeight exampleConfig = 0 → (scoreLead exampleConfig exampleLead).score = 0) :=
  score_in_range exampleConfig exampleLead (by decide) (by decide)

/-! ## C3 -/

/-- C3: When the enquiry timestamp is absent, the recency score is `0`,
yet the normalisation denominator still includes the recency `max_score`
budget, added unconditionally. -/
theorem no_enquiry_recency_zero (cfg : ScoringConfig) (lead : LeadData)
    (h : lead.daysSinceEnquiry = none) :
    (scoreLead cfg lead).recency_score = 0 ∧
    totalWeight cfg = weightSum cfg + cfg.recency.max_score ∧
    (scoreLead cfg lead).score =
      if 0 < weightSum cfg + cfg.recency.max_score then
        min 100 (matchedWeightSum cfg lead /
          (weightSum cfg + cfg.recency.max_score) * 100)
      else 0 := by
  have hr : recencyOf cfg lead = 0 := by
    unfold recencyOf
    rw [h]
    rfl
  refine ⟨hr, rfl, ?_⟩
  show normalizedScore cfg lead = _
  unfold normalizedScore totalRawScore totalWeight
  rw [hr, add_zero]

/-- Witness for C3: an all-false lead with no enquiry date. -/
theorem no_enquiry_recency_zero_witness :
    (scoreLead exampleConfig ⟨fun _ => false, none⟩).recency_score = 0 ∧
    totalWeight exampleConfig = weightSum exampleConfig + exampleConfig.recency.max_score ∧
    (scoreLead exampleConfig ⟨fun _ => false, none⟩).score =
      if 0 < weightSum exampleConfig + exampleConfig.recency.max_score then
        min 100 (matchedWeightSum exampleConfig ⟨fun _ => false, none⟩ /
          (weightSum exampleConfig + exampleConfig.recency.max_score) * 100)
      else 0 :=
  no_enquiry_recency_zero exampleConfig ⟨fun _ => false, none⟩ rfl

/-! ## C4 -/

/-- C4: The intent tier is `High` iff the score reaches the high
threshold, `Medium` iff it reaches the medium threshold but not the
high one, else `Low`; and under any fixed thresholds the tier is
monotonic in the score. -/
theorem intent_tier_characterization_and_monotone (t : IntentThresholds) :
    (∀ s : ℚ,
      (determineIntentLevel t s = "High" ↔ t.high ≤ s) ∧
      (determineIntentLevel t s = "Medium" ↔ t.medium ≤ s ∧ s < t.high) ∧
      (determineIntentLevel t s = "Low" ↔ s < t.high ∧ s < t.medium)) ∧
    (∀ a b : ℚ, b < a →
      intentRank (determineIntentLevel t b) ≤ intentRank (determineIntentLevel t a)) := by
  constructor
  · intro s
    unfold determineIntentLevel
    split_ifs with h1 h2
    · exact ⟨⟨fun _ => h1, fun _ => rfl⟩,
        ⟨fun h => absurd h (by decide), fun h => absurd h1 (not_le.mpr h.2)⟩,
        ⟨fun h => absurd h (by decide), fun h => absurd h1 (not_le.mpr h.1)⟩⟩
    · exact ⟨⟨fun h => absurd h (by decide), fun h => absurd h h1⟩,
        ⟨fun _ => ⟨h2, not_le.mp h1⟩, fun _ => rfl⟩,
        ⟨fun h => absurd h (by decide), fun h => absurd h2 (not_le.mpr h.2)⟩⟩
    · exact ⟨⟨fun h => absurd h (by decide), fun h => absurd h h1⟩,
        ⟨fun h => absurd h (by decide), fun h => absurd h.1 h2⟩,
        ⟨fun _ => ⟨not_le.mp h1, not_le.mp h2⟩, fun _ => rfl⟩⟩
  · intro a b hab
    unfold determineIntentLevel
    split_ifs <;> simp [intentRank] <;> linarith

/-- Witness for C4 with the default thresholds 80/60: a score of 90
never ranks below a score of 50. -/
theorem intent_tier_monotone_witness :
    intentRank (determineIntentLevel ⟨80, 60⟩ 50) ≤
      intentRank (determineIntentLevel ⟨80, 60⟩ 90) :=
  (intent_tier_characterization_and_monotone ⟨80, 60⟩).2 90 50 (by norm_num)

/-! ## C5 -/

/-- C5: Bracket selection is a pure function of the score with inclusive
lower bounds: `score ≥ 80 → score_80_100`, `60 ≤ score < 80 →
score_60_79`, `40 ≤ score < 60 → score_40_59`, below 40 →
`score_below_40`. -/
theorem action_key_brackets (s : ℚ) :
    (80 ≤ s → getActionKey s = "score_80_100") ∧
    (60 ≤ s → s < 80 → getActionKey s = "score_60_79") ∧
    (40 ≤ s → s < 60 → getActionKey s = "score_40_59") ∧
    (s < 40 → getActionKey s = "score_below_40") := by
  unfold getActionKey
  refine ⟨fun h => by rw [if_pos h], ?_, ?_, ?_⟩
  · intro h h'
    rw [if_neg (not_le.mpr h'), if_pos h]
  · intro h h'
    rw [if_neg (not_le.mpr (by linarith)), if_neg (not_le.mpr h'), if_pos h]
  · intro h
    rw [if_neg (not_le.mpr (by linarith)), if_neg (not_le.mpr (by linarith)),
      if_neg (not_le.mpr h)]

/-- Witness for C5 at the boundary: exactly 80 selects the top bracket,
while 79.999 selects the 60–79 bracket. -/
theorem action_key_brackets_witness :
    getActionKey 80 = "score_80_100" ∧ getActionKey (79999 / 1000) = "score_60_79" :=
  ⟨(action_key_brackets 80).1 (by norm_num),
   (action_key_brackets (79999 / 1000)).2.1 (by norm_num) (by norm_num)⟩

/-! ## C9 -/

/-- C9 (amended): Construction fails exactly when the configuration
document is missing or malformed; but a successfully parsed document
always yields an engine, whose weights section is the document's
(defaulted to empty when the section is absent) — construction does
not refuse an empty weights section. -/
theorem init_fails_only_on_load_failure :
    (∃ msg, initScoringEngine none = Except.error msg) ∧
    (∀ d : ConfigDoc, ∃ e, initScoringEngine (some d) = Except.ok e ∧
      e.weights = d.weights.getD []) :=
  ⟨⟨"Failed to load configuration", rfl⟩,
   fun d => ⟨⟨d.weights.getD [], d.recency.getD defaultRecencyConfig⟩, rfl, rfl⟩⟩

/-- Counterexample to C9 as stated: a well-formed document with no
`weights` section constructs successfully, and the engine starts with
empty weights. -/
theorem init_accepts_empty_weights_counterexample :
    (initScoringEngine (some ⟨none, none⟩)).toOption.map ScoringEngineState.weights =
      some [] := rfl

/-! ## C10 -/

/-- C10: The recency component has no upper clamp: for a future enquiry
timestamp (negative days since enquiry), positive decay window and
positive budget, the recency score is
`(days_decay - days_since) / days_decay * max_score`, strictly greater
than `max_score`, and it enters the total raw score and the contribution
list. -/
theorem recency_no_upper_clamp (cfg : ScoringConfig) (lead : LeadData) (days : ℤ)
    (hd : 0 < cfg.recency.days_decay) (hm : 0 < cfg.recency.max_score)
    (hdays : days < 0) (hlead : lead.daysSinceEnquiry = some days) :
    (scoreLead cfg lead).recency_score =
      (cfg.recency.days_decay - (days : ℚ)) / cfg.recency.days_decay *
        cfg.recency.max_score ∧
    cfg.recency.max_score < (scoreLead cfg lead).recency_score ∧
    totalRawScore cfg lead =
      matchedWeightSum cfg lead + (scoreLead cfg lead).recency_score ∧
    (⟨"recency",
      (scoreLead cfg lead).recency_score / totalWeight cfg * 100,
      cfg.recency.description⟩ : Contribution) ∈ (scoreLead cfg lead).contributions := by
  have hval : (1 : ℚ) < (cfg.recency.days_decay - (days : ℚ)) / cfg.recency.days_decay := by
    rw [lt_div_iff₀ hd, one_mul]
    have : ((days : ℚ)) < 0 := by exact_mod_cast hdays
    linarith
  have hgt : cfg.recency.max_score <
      (cfg.recency.days_decay - (days : ℚ)) / cfg.recency.days_decay *
        cfg.recency.max_score := by
    calc cfg.recency.max_score = 1 * cfg.recency.max_score := (one_mul _).symm
      _ < _ := by
        apply mul_lt_mul_of_pos_right hval hm
  have hrec : (scoreLead cfg lead).recency_score =
      (cfg.recency.days_decay - (days : ℚ)) / cfg.recency.days_decay *
        cfg.recency.max_score := by
    show recencyOf cfg lead = _
    unfold recencyOf
    rw [hlead]
    unfold calcRecencyScore
    exact max_eq_right (le_of_lt (lt_trans hm hgt))
  refine ⟨hrec, by rw [hrec]; exact hgt, rfl, ?_⟩
  show _ ∈ sortDesc (contributionsUnsorted cfg lead)
  rw [mem_sortDesc]
  unfold contributionsUnsorted
  have hpos : 0 < recencyOf cfg lead := by
    have : recencyOf cfg lead =
        (cfg.recency.days_decay - (days : ℚ)) / cfg.recency.days_decay *
          cfg.recency.max_score := hrec
    rw [this]
    exact lt_trans hm hgt
  rw [if_pos hpos]
  apply List.mem_append_right
  exact List.mem_singleton.mpr rfl

/-- Witness for C10: empty weights, recency budget 10 with a 15-day
window, enquiry 15 days in the future — the recency score is 20, twice
its budget, and the sole contribution has impact 200. -/
theorem recency_no_upper_clamp_witness :
    (scoreLead ⟨[], ⟨15, 10, "Recent enquiry"⟩⟩ ⟨fun _ => false, some (-15)⟩).recency_score =
      ((⟨[], ⟨15, 10, "Recent enquiry"⟩⟩ : ScoringConfig).recency.days_decay - ((-15 : ℤ) : ℚ)) /
        (⟨[], ⟨15, 10, "Recent enquiry"⟩⟩ : ScoringConfig).recency.days_decay *
        (⟨[], ⟨15, 10, "Recent enquiry"⟩⟩ : ScoringConfig).recency.max_score ∧
    (⟨[], ⟨15, 10, "Recent enquiry"⟩⟩ : ScoringConfig).recency.max_score <
      (scoreLead ⟨[], ⟨15, 10, "Recent enquiry"⟩⟩ ⟨fun _ => false, some (-15)⟩).recency_score ∧
    totalRawScore ⟨[], ⟨15, 10, "Recent enquiry"⟩⟩ ⟨fun _ => false, some (-15)⟩ =
      matchedWeightSum ⟨[], ⟨15, 10, "Recent enquiry"⟩⟩ ⟨fun _ => false, some (-15)⟩ +
        (scoreLead ⟨[], ⟨15, 10, "Recent enquiry"⟩⟩ ⟨fun _ => false, some (-15)⟩).recency_score ∧
    (⟨"recency",
      (scoreLead ⟨[], ⟨15, 10, "Recent enquiry"⟩⟩ ⟨fun _ => false, some (-15)⟩).recency_score /
        totalWeight ⟨[], ⟨15, 10, "Recent enquiry"⟩⟩ * 100,
      (⟨[], ⟨15, 10, "Recent enquiry"⟩⟩ : ScoringConfig).recency.description⟩ : Contribution) ∈
      (scoreLead ⟨[], ⟨15, 10, "Recent enquiry"⟩⟩ ⟨fun _ => false, some (-15)⟩).contributions :=
  recency_no_upper_clamp ⟨[], ⟨15, 10, "Recent enquiry"⟩⟩ ⟨fun _ => false, some (-15)⟩ (-15)
    (by norm_num) (by norm_num) (by norm_num) rfl

/-! ## C6 -/

/-- C6: The returned contribution list is sorted by impact in descending
order, and entries with equal impact keep the relative order they had
in the pre-sort (encounter-order) list — the sort is stable. -/
theorem contributions_sorted_and_stable (cfg : ScoringConfig) (lead : LeadData) :
    (scoreLead cfg lead).contributions.Pairwise (fun a b => b.impact ≤ a.impact) ∧
    ∀ q : ℚ,
      (scoreLead cfg lead).contributions.filter (fun c => decide (c.impact = q)) =
        (contributionsUnsorted cfg lead).filter (fun c => decide (c.impact = q)) :=
  ⟨sortDesc_sorted (contributionsUnsorted cfg lead),
   fun q => sortDesc_filter (contributionsUnsorted cfg lead) q⟩

/-! ## C7 -/

/-- C7: The confidence equals
`max(0, min(100, 100 × (0.3·completeness + 0.4·recency + 0.3·diversity)))`
with the documented default baselines, regardless of the configured
`confidence_factors` weights (and of the score argument): the
implementation coincides with the spec-side formula, which takes no
configuration. -/
theorem confidence_matches_spec (factors : List ℚ) (score : ℚ)
    (contributions : List Contribution) (lead_data : Option ConfLeadData) :
    calcConfidence factors score contributions lead_data =
      confidenceSpec contributions lead_data := by
  simp only [calcConfidence, confidenceSpec]
  congr 2
  ring

/-! ## C2 -/

theorem list_sum_map_div_mul (l : List WeightEntry) (f : WeightEntry → ℚ) (W k : ℚ) :
    (l.map (fun e => f e / W * k)).sum = (l.map f).sum / W * k := by
  induction l with
  | nil => simp
  | cons x xs ih =>
    simp only [List.map_cons, List.sum_cons, ih]
    ring

theorem list_sum_filter_le (l : List WeightEntry) (f : WeightEntry → ℚ)
    (p : WeightEntry → Bool) (hf : ∀ e ∈ l, 0 ≤ f e) :
    ((l.filter p).map f).sum ≤ (l.map f).sum := by
  induction l with
  | nil => simp
  | cons x xs ih =>
    have hx := hf x (List.mem_cons_self x xs)
    have ih' := ih (fun e he => hf e (List.mem_cons_of_mem x he))
    by_cases hp : p x = true
    · simp only [List.filter_cons, hp, if_true, List.map_cons, List.sum_cons]
      linarith
    · have hpf : p x = false := by simpa using hp
      simp only [List.filter_cons, hpf, Bool.false_eq_true, if_false, List.map_cons,
        List.sum_cons]
      linarith

/-- The impact fields of the pre-sort contribution list sum to
`(S + R) / total_weight × 100`, where `S` is the summed raw score of
the contributing features and `R` the recency score when positive. -/
theorem impactSum_contributionsUnsorted (cfg : ScoringConfig) (lead : LeadData) :
    impactSum (contributionsUnsorted cfg lead) =
      (((cfg.weights.filter (fun e => decide (0 < featureRaw lead e))).map
          (featureRaw lead)).sum +
        (if 0 < recencyOf cfg lead then recencyOf cfg lead else 0)) /
        totalWeight cfg * 100 := by
  unfold contributionsUnsorted impactSum
  rw [List.map_append, List.sum_append]
  have hbase : ((baseContributions cfg lead).map Contribution.impact).sum =
      ((cfg.weights.filter (fun e => decide (0 < featureRaw lead e))).map
        (featureRaw lead)).sum / totalWeight cfg * 100 := by
    unfold baseContributions
    rw [List.map_map]
    exact list_sum_map_div_mul _ (featureRaw lead) (totalWeight cfg) 100
  rw [hbase]
  by_cases hr : 0 < recencyOf cfg lead
  · rw [if_pos hr, if_pos hr]
    simp only [List.map_cons, List.map_nil, List.sum_cons, List.sum_nil]
    ring
  · rw [if_neg hr, if_neg hr]
    simp only [List.map_nil, List.sum_nil]
    ring

/-- A configuration with no weighted features and the default recency
parameters. -/
def futureConfig : ScoringConfig := ⟨[], ⟨15, 10, "Recent enquiry"⟩⟩

/-- A lead whose enquiry date lies 15 days in the future. -/
def futureLead : LeadData := ⟨fun _ => false, some (-15)⟩

theorem futureLead_recency : recencyOf futureConfig futureLead = 20 := by
  have heq : recencyOf futureConfig futureLead =
      max 0 (((15 : ℚ) - ((-15 : ℤ) : ℚ)) / 15 * 10) := rfl
  have h : ((15 : ℚ) - ((-15 : ℤ) : ℚ)) / 15 * 10 = 20 := by
    push_cast
    norm_num
  rw [heq, h]
  exact max_eq_right (by norm_num)

/-- Counterexample to C2 as stated: with no weighted features, recency
budget 10 and decay window 15, a lead whose enquiry date lies 15 days in
the future yields a single recency contribution of impact 200, so the
impacts sum to more than 100. -/
theorem impacts_sum_counterexample :
    ¬ (impactSum (scoreLead futureConfig futureLead).contributions ≤ 100) := by
  intro h
  have h200 : impactSum (scoreLead futureConfig futureLead).contributions = 200 := by
    have hs : impactSum (scoreLead futureConfig futureLead).contributions =
        impactSum (contributionsUnsorted futureConfig futureLead) :=
      impactSum_sortDesc (contributionsUnsorted futureConfig futureLead)
    rw [hs, impactSum_contributionsUnsorted, futureLead_recency]
    norm_num [futureConfig, totalWeight, weightSum, futureLead, baseContributions,
      featureRaw]
  rw [h200] at h
  norm_num at h

/-- C2 (amended): For every lead feature set whose enquiry timestamp,
when present, is not in the future, and every configuration with
non-negative weights, non-negative recency `max_score` and positive
`days_decay`, the impacts of the returned contributions (including the
synthetic recency entry) sum to at most 100. -/
theorem impacts_sum_le_100 (cfg : ScoringConfig) (lead : LeadData)
    (hw : ∀ e ∈ cfg.weights, 0 ≤ e.weight) (hm : 0 ≤ cfg.recency.max_score)
    (hd : 0 < cfg.recency.days_decay)
    (hdays : ∀ days, lead.daysSinceEnquiry = some days → 0 ≤ days) :
    impactSum (scoreLead cfg lead).contributions ≤ 100 := by
  have hs : impactSum (scoreLead cfg lead).contributions =
      impactSum (contributionsUnsorted cfg lead) :=
    impactSum_sortDesc (contributionsUnsorted cfg lead)
  rw [hs, impactSum_contributionsUnsorted]
  set S := ((cfg.weights.filter (fun e => decide (0 < featureRaw lead e))).map
    (featureRaw lead)).sum with hS
  set R := (if 0 < recencyOf cfg lead then recencyOf cfg lead else 0) with hR
  have hS0 : 0 ≤ S := by
    apply List.sum_nonneg
    intro x hx
    rcases List.mem_map.mp hx with ⟨e, he, rfl⟩
    exact featureRaw_nonneg (hw e (List.mem_of_mem_filter he))
  have hSle : S ≤ weightSum cfg := by
    calc S ≤ (cfg.weights.map (featureRaw lead)).sum :=
          list_sum_filter_le cfg.weights (featureRaw lead) _
            (fun e he => featureRaw_nonneg (hw e he))
      _ ≤ weightSum cfg := matchedWeightSum_le_weightSum hw
  have hrle : recencyOf cfg lead ≤ cfg.recency.max_score := by
    unfold recencyOf
    cases hcase : lead.daysSinceEnquiry with
    | none => simpa [calcRecencyScore] using hm
    | some days => exact calcRecencyScore_le_max hd hm (hdays days hcase)
  have hR0 : 0 ≤ R := by
    rw [hR]
    split
    · exact le_of_lt (by assumption)
    · exact le_refl 0
  have hRle : R ≤ cfg.recency.max_score := by
    rw [hR]
    split
    · exact hrle
    · exact hm
  have hW0 : 0 ≤ totalWeight cfg := add_nonneg (weightSum_nonneg hw) hm
  have hSR : S + R ≤ totalWeight cfg := by
    unfold totalWeight
    linarith
  by_cases hW : 0 < totalWeight cfg
  · have h1 : (S + R) / totalWeight cfg ≤ 1 := (div_le_one hW).mpr hSR
    calc (S + R) / totalWeight cfg * 100 ≤ 1 * 100 :=
          mul_le_mul_of_nonneg_right h1 (by norm_num)
      _ = 100 := one_mul _
  · have hWz : totalWeight cfg = 0 := le_antisymm (not_lt.mp hW) hW0
    rw [hWz, div_zero, zero_mul]
    norm_num

/-- Witness for the amended C2 at the spec's worked example (enquiry
five days in the past). -/
theorem impacts_sum_le_100_witness :
    impactSum (scoreLead exampleConfig exampleLead).contributions ≤ 100 :=
  impacts_sum_le_100 exampleConfig exampleLead (by decide) (by decide) (by decide)
    (by
      intro days h
      have h5 : (some (5 : ℤ)) = some days := h
      injection h5 with h5
      omega)

/-! ## C8 -/

theorem find?_updateFirst {α : Type} (p : α → Bool) (f : α → α)
    (hf : ∀ x, p (f x) = true) :
    ∀ l : List α, (updateFirst p f l).find? p = (l.find? p).map f := by
  intro l
  induction l with
  | nil => rfl
  | cons x xs ih =>
    by_cases hp : p x = true
    · unfold updateFirst
      rw [if_pos hp, List.find?_cons_of_pos _ (hf x), List.find?_cons_of_pos _ hp]
      rfl
    · unfold updateFirst
      rw [if_neg hp, List.find?_cons_of_neg _ hp, List.find?_cons_of_neg _ hp]
      exact ih

/-- After `score_lead` runs for a payload, the stored record found for
the payload's email carries exactly the feature and scoring fields the
engines computed from that payload, whatever the prior contents of the
store: the update path overwrites every such field, the insert path
writes them fresh. -/
theorem scoreLeadService_lookup (cfg : PipelineConfig) (now : ℤ)
    (store : List LeadRecord) (input : LeadInput) :
    lookupStored (scoreLeadService cfg now store input) input.email =
      some (computedStoredFields cfg now input) := by
  unfold lookupStored scoreLeadService
  cases hfind : store.find? (fun r => r.email == input.email) with
  | none =>
    simp only [hfind, List.find?_append]
    have hp : ((newLeadRecord (computedStoredFields cfg now input) now).email ==
        input.email) = true := by
      simp [newLeadRecord, computedStoredFields]
    simp only [List.find?_cons, hp, List.find?_nil, Option.none_or]
    rfl
  | some x =>
    simp only [hfind]
    rw [find?_updateFirst _ _ ?_ store, hfind]
    · rfl
    · intro r
      simp [overwriteLead, computedStoredFields]

/-- C8: Scoring the same email twice with identical feature payloads
leaves the persisted feature and scoring fields identical to those
after a single write of that payload — the update overwrites fully,
with no accumulation across calls. -/
theorem score_lead_idempotent (cfg : PipelineConfig) (now : ℤ)
    (store : List LeadRecord) (input : LeadInput) :
    lookupStored
        (scoreLeadService cfg now (scoreLeadService cfg now store input) input)
        input.email =
      lookupStored (scoreLeadService cfg now store input) input.email := by
  rw [scoreLeadService_lookup, scoreLeadService_lookup]

end CRM
